import Mathlib

/-!
Shallow embedding of the `wlog` logging utility (`src/wlog.ts`): the log
persistence core (facade fan-out to store / console / file), the multi-format
file serialization (`writeToFile`), and the filtered/paginated SQL query
builder (`buildQueryFromParams`).

Machine conventions:
* instants sampled by JavaScript `new Date()` are modelled as a clock function
  `Nat → Nat` indexed by the number of `Date` constructions so far; the
  locale / ISO renderings of an instant are abstract formatting parameters;
* the single log file targeted by `getFullFilePath` is modelled as
  `Option String` (`none` = file absent, mirroring `existsSync`);
* the JavaScript runtime's `JSON.stringify(logs, null, 2)` / `JSON.parse`
  pair is modelled by an executable serializer and parser for the exact
  array-of-entry shape the sink produces;
* fallible external operations (the sqlite insert, the filesystem write) are
  driven by explicit fault flags, and a thrown exception is an `Except.error`.
-/

/-- The `LogFormat` enum of `wlog.ts` (values `'txt' | 'json' | 'csv'`). -/
inductive LogFormat
  | text
  | json
  | csv
deriving DecidableEq, Repr

/-- File extension carried by each `LogFormat` enum value. -/
def LogFormat.ext : LogFormat → String
  | .text => "txt"
  | .json => "json"
  | .csv => "csv"

/-- The `LogEntry` interface: `timestamp`, `level`, `message`, all strings. -/
structure LogEntry where
  timestamp : String
  level : String
  message : String
deriving DecidableEq, Repr

/-! ### JSON codec: model of `JSON.stringify(logs, null, 2)` and `JSON.parse`
restricted to the array-of-entries shape this sink reads and writes. -/

/-- JSON string escaping of one character (the escapes `JSON.stringify`
emits that matter for round-tripping: quote, backslash, and the common
control characters; any other character is kept literally). -/
def escChar (c : Char) : List Char :=
  if c = '"' then ['\\', '"']
  else if c = '\\' then ['\\', '\\']
  else if c = '\n' then ['\\', 'n']
  else if c = '\r' then ['\\', 'r']
  else if c = '\t' then ['\\', 't']
  else [c]

/-- Decoding of a one-character JSON escape sequence. -/
def unescChar (c : Char) : Option Char :=
  if c = '"' then some '"'
  else if c = '\\' then some '\\'
  else if c = 'n' then some '\n'
  else if c = 'r' then some '\r'
  else if c = 't' then some '\t'
  else none

/-- Escape a whole string for inclusion in a JSON string literal. -/
def jsonEscape (s : String) : String :=
  ⟨s.data.flatMap escChar⟩

/-- A JSON string literal: quotes around the escaped content. -/
def jsonStr (s : String) : String :=
  "\"" ++ jsonEscape s ++ "\""

/-- One entry as `JSON.stringify([...], null, 2)` renders it inside the
top-level array (two-space indentation, keys in declaration order). -/
def entryJson (e : LogEntry) : String :=
  "  \x7b\n    \"timestamp\": " ++ jsonStr e.timestamp ++
  ",\n    \"level\": " ++ jsonStr e.level ++
  ",\n    \"message\": " ++ jsonStr e.message ++ "\n  \x7d"

/-- Serialization of every entry after the first (each preceded by the
`,\n` separator). -/
def restItems : List LogEntry → String
  | [] => ""
  | e :: es => ",\n" ++ entryJson e ++ restItems es

/-- Model of `JSON.stringify(logs, null, 2)` on a list of entries. -/
def jsonStringify (l : List LogEntry) : String :=
  match l with
  | [] => "[]"
  | e :: es => "[\n" ++ entryJson e ++ restItems es ++ "\n]"

/-- Consume an exact literal character sequence from the input. -/
def expectLit : List Char → List Char → Option (List Char)
  | [], input => some input
  | _ :: _, [] => none
  | p :: ps, c :: cs => if c = p then expectLit ps cs else none

/-- Parse the body of a JSON string literal (everything after the opening
quote, up to and including the closing quote), undoing `escChar`. -/
def parseStrBody : List Char → Option (List Char × List Char)
  | [] => none
  | c :: rest =>
    if c = '"' then some ([], rest)
    else if c = '\\' then
      match rest with
      | [] => none
      | e :: rest2 =>
        match unescChar e with
        | none => none
        | some d =>
          match parseStrBody rest2 with
          | none => none
          | some (s, r) => some (d :: s, r)
    else
      match parseStrBody rest with
      | none => none
      | some (s, r) => some (c :: s, r)

/-- Parse one pretty-printed entry object (the exact shape `entryJson`
produces). -/
def parseEntry (input : List Char) : Option (LogEntry × List Char) :=
  match expectLit "  \x7b\n    \"timestamp\": \"".data input with
  | none => none
  | some r1 =>
    match parseStrBody r1 with
    | none => none
    | some (ts, r2) =>
      match expectLit ",\n    \"level\": \"".data r2 with
      | none => none
      | some r3 =>
        match parseStrBody r3 with
        | none => none
        | some (lv, r4) =>
          match expectLit ",\n    \"message\": \"".data r4 with
          | none => none
          | some r5 =>
            match parseStrBody r5 with
            | none => none
            | some (ms, r6) =>
              match expectLit "\n  \x7d".data r6 with
              | none => none
              | some r7 => some (⟨⟨ts⟩, ⟨lv⟩, ⟨ms⟩⟩, r7)

/-- Parse the remaining entries of the array (after the first), then the
closing `\n]`. Fuel-driven; each step consumes input. -/
def parseTail : Nat → List Char → Option (List LogEntry × List Char)
  | 0, _ => none
  | fuel + 1, input =>
    match expectLit [',', '\n'] input with
    | some r =>
      match parseEntry r with
      | none => none
      | some (e, r2) =>
        match parseTail fuel r2 with
        | none => none
        | some (es, r3) => some (e :: es, r3)
    | none =>
      match expectLit ['\n', ']'] input with
      | none => none
      | some r => some ([], r)

/-- Model of `JSON.parse` restricted to the array shape the sink writes:
returns `some` exactly on well-formed content, `none` on malformed content
(where `JSON.parse` would throw). -/
def jsonParse (s : String) : Option (List LogEntry) :=
  if s = "[]" then some []
  else
    match expectLit ['[', '\n'] s.data with
    | none => none
    | some r =>
      match parseEntry r with
      | none => none
      | some (e, r2) =>
        match parseTail (r2.length + 1) r2 with
        | some (es, []) => some (e :: es)
        | _ => none

/-! ### File sink: `Wlog.writeToFile` -/

/-- One CSV data line: `` `${entry.timestamp},${entry.level},${entry.message}\n` ``. -/
def csvLine (e : LogEntry) : String :=
  e.timestamp ++ "," ++ e.level ++ "," ++ e.message ++ "\n"

/-- Concatenation of the CSV data lines of a list of entries. -/
def csvBody : List LogEntry → String
  | [] => ""
  | e :: es => csvLine e ++ csvBody es

/-- One TEXT line: `` `[${entry.timestamp}] [${entry.level}] ${entry.message}\n` ``. -/
def textLine (e : LogEntry) : String :=
  "[" ++ e.timestamp ++ "] [" ++ e.level ++ "] " ++ e.message ++ "\n"

/-- `Wlog.writeToFile`, acting on the single target file (modelled as
`Option String`; `none` = absent). The whole body runs inside
`try ... catch (error) { console.error(...) }`: the Boolean result records
whether the catch block reported an error. `fault` injects an I/O failure
(directory creation / read / write throwing); a malformed existing JSON
file makes `JSON.parse` throw, which the same catch swallows. On any
caught failure the file is left unchanged and the call returns normally. -/
def writeToFile (fmt : LogFormat) (fault : Bool) (entry : LogEntry)
    (file : Option String) : Option String × Bool :=
  if fault then (file, true)
  else
    let content := match file with
      | some c => c
      | none => ""
    match fmt with
    | .json =>
      match (if content = "" then some [] else jsonParse content) with
      | none => (file, true)
      | some logs => (some (jsonStringify (logs ++ [entry])), false)
    | .csv =>
      let content := if content = "" then "timestamp,level,message\n" else content
      (some (content ++ csvLine entry), false)
    | .text => (some (content ++ textLine entry), false)

/-- Sequential fault-free writes of a list of entries through the sink. -/
def writeSeq (fmt : LogFormat) (file : Option String) (es : List LogEntry) :
    Option String :=
  es.foldl (fun acc e => (writeToFile fmt false e acc).1) file

/-! ### Line helpers used to state the file-content claims. -/

/-- Split a character list at every newline (the trailing piece after the
last newline is included, so content ending in `\n` yields a final `[]`). -/
def splitNl : List Char → List (List Char)
  | [] => [[]]
  | c :: cs =>
    if c = '\n' then [] :: splitNl cs
    else
      match splitNl cs with
      | [] => [[c]]
      | h :: t => (c :: h) :: t

/-- The lines of a string (components produced by splitting at `\n`). -/
def linesOf (s : String) : List String :=
  (splitNl s.data).map fun l => ⟨l⟩

/-- Whether `s` ends with the string `suf`. -/
def endsWithStr (s suf : String) : Bool :=
  decide (s.data.reverse.take suf.data.length = suf.data.reverse)

/-- Everything before the first newline of a string. -/
def firstLine (s : String) : String :=
  ⟨s.data.takeWhile fun c => c ≠ '\n'⟩

/-! ### Query builder: `Wlog.buildQueryFromParams` -/

/-- A value bound into the parameterized statement (`values` holds strings
for the filters and numbers for the pagination). -/
inductive SqlValue
  | str (s : String)
  | num (n : Nat)
deriving DecidableEq, Repr

/-- The `LogQueryParams` interface. All fields are optional; `order` is
declared `'ASC' | 'DESC'` in TypeScript, but that annotation is erased at
runtime (the HTTP handler installs an arbitrary upper-cased string through
an unchecked cast), so it is modelled as an arbitrary optional string. -/
structure LogQueryParams where
  startDate : Option String := none
  endDate : Option String := none
  level : Option String := none
  limit : Option Nat := none
  offset : Option Nat := none
  order : Option String := none
deriving DecidableEq, Repr

/-- JavaScript truthiness of an optional string (`undefined` and `""` are
falsy). -/
def strTruthy : Option String → Bool
  | some s => s ≠ ""
  | none => false

/-- JavaScript truthiness of an optional number (`undefined` and `0` are
falsy). -/
def natTruthy : Option Nat → Bool
  | some n => n ≠ 0
  | none => false

/-- `params.order || 'DESC'`: the string interpolated after
`ORDER BY timestamp `. -/
def orderEff : Option String → String
  | some s => if s = "" then "DESC" else s
  | none => "DESC"

/-- `Wlog.buildQueryFromParams`: the SQL text and the bound-values sequence
built from a filter request (lines 306-343 of `wlog.ts`). -/
def buildQueryFromParams (params : LogQueryParams) : String × List SqlValue :=
  let conditions : List String := []
  let values : List SqlValue := []
  let (conditions, values) :=
    if strTruthy params.startDate then
      (conditions ++ ["timestamp >= ?"], values ++ [.str (params.startDate.getD "")])
    else (conditions, values)
  let (conditions, values) :=
    if strTruthy params.endDate then
      (conditions ++ ["timestamp <= ?"], values ++ [.str (params.endDate.getD "")])
    else (conditions, values)
  let (conditions, values) :=
    if strTruthy params.level then
      (conditions ++ ["level = ?"], values ++ [.str (params.level.getD "")])
    else (conditions, values)
  let query := "SELECT * FROM logs"
  let query :=
    if conditions.length > 0 then
      query ++ " WHERE " ++ String.intercalate " AND " conditions
    else query
  let query := query ++ " ORDER BY timestamp " ++ orderEff params.order
  let (query, values) :=
    if natTruthy params.limit then
      let query := query ++ " LIMIT ?"
      let values := values ++ [.num (params.limit.getD 0)]
      if natTruthy params.offset then
        (query ++ " OFFSET ?", values ++ [.num (params.offset.getD 0)])
      else (query, values)
    else (query, values)
  (query, values)

/-- The predicate/bound-value pairs the spec prescribes: one conjunct per
present field among `startDate`, `endDate`, `level`, in that fixed order. -/
def specConds (params : LogQueryParams) : List (String × SqlValue) :=
  (if strTruthy params.startDate then
    [("timestamp >= ?", SqlValue.str (params.startDate.getD ""))] else []) ++
  (if strTruthy params.endDate then
    [("timestamp <= ?", SqlValue.str (params.endDate.getD ""))] else []) ++
  (if strTruthy params.level then
    [("level = ?", SqlValue.str (params.level.getD ""))] else [])

/-- The pagination suffix of the SQL text. -/
def pagSql (params : LogQueryParams) : String :=
  if natTruthy params.limit then
    if natTruthy params.offset then " LIMIT ? OFFSET ?" else " LIMIT ?"
  else ""

/-- The pagination suffix of the bound-values sequence. -/
def pagVals (params : LogQueryParams) : List SqlValue :=
  if natTruthy params.limit then
    SqlValue.num (params.limit.getD 0) ::
      (if natTruthy params.offset then [SqlValue.num (params.offset.getD 0)] else [])
  else []

/-- JavaScript's `String.prototype.toUpperCase` on ASCII content:
upper-case every character. -/
def jsToUpper (s : String) : String :=
  ⟨s.data.map Char.toUpper⟩

/-- The `order` value the HTTP handler installs into the params (line 145):
`(url.searchParams.get('order')?.toUpperCase() as 'ASC' | 'DESC') || 'DESC'`.
The cast performs no runtime check, so any upper-cased string flows through. -/
def fetchOrder (raw : Option String) : String :=
  match raw with
  | none => "DESC"
  | some s => if jsToUpper s = "" then "DESC" else jsToUpper s

/-! ### Semantics of the built statement against the store. -/

/-- A row of the `logs` table as `SELECT *` returns it. -/
structure LogRow where
  id : Nat
  level : String
  message : String
  timestamp : String
deriving DecidableEq, Repr

/-- Whether a row satisfies every predicate the builder emitted (SQLite
evaluates `timestamp >= ?` / `timestamp <= ?` / `level = ?` on the bound
strings; absent fields contribute no predicate). -/
def rowMatches (params : LogQueryParams) (r : LogRow) : Bool :=
  (!strTruthy params.startDate || decide (params.startDate.getD "" ≤ r.timestamp)) &&
  (!strTruthy params.endDate || decide (r.timestamp ≤ params.endDate.getD "")) &&
  (!strTruthy params.level || decide (r.level = params.level.getD ""))

/-- Insertion into a list kept sorted by ascending timestamp. -/
def insertAsc (r : LogRow) : List LogRow → List LogRow
  | [] => [r]
  | x :: xs => if r.timestamp ≤ x.timestamp then r :: x :: xs else x :: insertAsc r xs

/-- Sort rows by ascending timestamp. -/
def sortByTs (rows : List LogRow) : List LogRow :=
  rows.foldr insertAsc []

/-- `ORDER BY timestamp <order>`: ascending for `ASC`, descending otherwise. -/
def orderRows (ord : String) (rows : List LogRow) : List LogRow :=
  if ord = "ASC" then sortByTs rows else (sortByTs rows).reverse

/-- Result of executing the statement `buildQueryFromParams` emits against
a store containing `rows`: filter, order, then apply `LIMIT ?` exactly when
the builder emitted it, and `OFFSET ?` exactly when the builder emitted it. -/
def runQuery (params : LogQueryParams) (rows : List LogRow) : List LogRow :=
  let res := orderRows (orderEff params.order) (rows.filter (rowMatches params))
  if natTruthy params.limit then
    if natTruthy params.offset then
      (res.drop (params.offset.getD 0)).take (params.limit.getD 0)
    else res.take (params.limit.getD 0)
  else res

/-! ### Logger facade: `Wlog.log` / `Wlog.info` / `Wlog.error` -/

/-- The optional `WlogConfig` constructor argument (server options are the
HTTP collaborator's concern and not part of the persistence core). -/
structure WlogConfig where
  logToConsole : Option Bool := none
  logToFile : Option Bool := none
  filePath : Option String := none
  fileFormat : Option LogFormat := none
deriving DecidableEq, Repr

/-- The merged `Required<WlogConfig>` the constructor stores. -/
structure Config where
  logToConsole : Bool
  logToFile : Bool
  filePath : String
  fileFormat : LogFormat
deriving DecidableEq, Repr

/-- The constructor's merge with defaults (lines 120-124 of `wlog.ts`):
`logToConsole ?? true`, `logToFile ?? false`, `filePath ?? "logs"`,
`fileFormat ?? LogFormat.TEXT`. -/
def mkConfig (c : WlogConfig) : Config where
  logToConsole := c.logToConsole.getD true
  logToFile := c.logToFile.getD false
  filePath := c.filePath.getD "logs"
  fileFormat := c.fileFormat.getD LogFormat.text

/-- `Wlog.getFullFilePath`: `` `${filePath}.${fileFormat}` ``. -/
def getFullFilePath (c : Config) : String :=
  c.filePath ++ "." ++ c.fileFormat.ext

/-- Fault flags for the two fallible external operations of one facade
call: the sqlite insert throwing, and the file sink's I/O throwing. -/
structure Faults where
  insertFails : Bool
  fileFails : Bool
deriving DecidableEq, Repr

/-- No injected faults. -/
def noFaults : Faults := ⟨false, false⟩

/-- A row of the store as the facade inserts it: the level tag, the
message, and the instant whose ISO-8601 rendering was bound as `timestamp`. -/
structure DbRow where
  level : String
  message : String
  instant : Nat
deriving DecidableEq, Repr

/-- The console channel a line was emitted on (`console.log` /
`console.info` / `console.error`). -/
inductive CStream
  | out
  | inf
  | err
deriving DecidableEq, Repr

/-- One console line `` `[${locale timestamp}] [${TAG}] ${message}` ``,
kept structured: the channel, the instant whose locale rendering was
printed, the upper-case tag, and the message. -/
structure ConsoleLine where
  stream : CStream
  instant : Nat
  tag : String
  message : String
deriving DecidableEq, Repr

/-- Observable state of one `Wlog` instance: the store rows, the console
lines, the log file, the number of operator error reports (the
`console.error` in `writeToFile`'s catch block), the number of completed
filesystem writes, and how many `new Date()` constructions have happened. -/
structure WState where
  db : List DbRow
  console : List ConsoleLine
  file : Option String
  opErrors : Nat
  fsWrites : Nat
  clockIdx : Nat
deriving DecidableEq, Repr

/-- Fresh instance state: empty store, no console output, absent file. -/
def initState : WState :=
  ⟨[], [], none, 0, 0, 0⟩

/-- Common body of the three facade methods. `clock` gives the instant each
successive `new Date()` returns; `locOf` renders an instant the way
`toLocaleString()` does. The method: (1) inserts into the store with
the current instant in ISO form - the `db.run` call sits outside every
try/catch, so an insert fault throws to the caller; (2) if `logToConsole`,
emits one console line tagged with a freshly sampled locale timestamp;
(3) if `logToFile`, builds a `LogEntry` from another freshly sampled locale
timestamp and hands it to `writeToFile`, whose failures are caught inside. -/
def facadeCall (cfg : Config) (flt : Faults) (clock : Nat → Nat)
    (locOf : Nat → String) (lvlDb lvlTag : String) (stream : CStream)
    (message : String) (st : WState) : Except Unit WState :=
  let t1 := clock st.clockIdx
  let st := { st with clockIdx := st.clockIdx + 1 }
  if flt.insertFails then Except.error () else
  let st := { st with db := st.db ++ [⟨lvlDb, message, t1⟩] }
  let st :=
    if cfg.logToConsole then
      let t2 := clock st.clockIdx
      { st with clockIdx := st.clockIdx + 1,
                console := st.console ++ [⟨stream, t2, lvlTag, message⟩] }
    else st
  if cfg.logToFile then
    let t3 := clock st.clockIdx
    let st := { st with clockIdx := st.clockIdx + 1 }
    let res := writeToFile cfg.fileFormat flt.fileFails ⟨locOf t3, lvlTag, message⟩ st.file
    Except.ok { st with
      file := res.1,
      opErrors := st.opErrors + (if res.2 then 1 else 0),
      fsWrites := st.fsWrites + (if res.2 then 0 else 1) }
  else Except.ok st

/-- `Wlog.log`: level `"log"` in the store, tag `'LOG'` on console/file,
channel `console.log`. -/
def Wlog.log (cfg : Config) (flt : Faults) (clock : Nat → Nat)
    (locOf : Nat → String) (message : String) (st : WState) : Except Unit WState :=
  facadeCall cfg flt clock locOf "log" "LOG" CStream.out message st

/-- `Wlog.info`: level `"info"` in the store, tag `'INFO'` on console/file,
channel `console.info`. -/
def Wlog.info (cfg : Config) (flt : Faults) (clock : Nat → Nat)
    (locOf : Nat → String) (message : String) (st : WState) : Except Unit WState :=
  facadeCall cfg flt clock locOf "info" "INFO" CStream.inf message st

/-- `Wlog.error`: level `"error"` in the store, tag `'ERROR'` on
console/file, channel `console.error`. -/
def Wlog.error (cfg : Config) (flt : Faults) (clock : Nat → Nat)
    (locOf : Nat → String) (message : String) (st : WState) : Except Unit WState :=
  facadeCall cfg flt clock locOf "error" "ERROR" CStream.err message st

/-- The file component of a facade-call result (`none` when the call threw). -/
def fileOf : Except Unit WState → Option String
  | .ok st => st.file
  | .error _ => none

/-- The store component of a facade-call result. -/
def dbOf : Except Unit WState → List DbRow
  | .ok st => st.db
  | .error _ => []

/-- The console component of a facade-call result. -/
def consoleOf : Except Unit WState → List ConsoleLine
  | .ok st => st.console
  | .error _ => []

/-! ### Concrete instantiations used by witnesses and counterexamples. -/

/-- A concrete clock: `new Date()` number `n` returns instant `n`
(the clock advances between constructions). -/
def natClock : Nat → Nat := fun n => n

/-- A concrete locale rendering of instants. -/
def natLoc : Nat → String := fun t => toString t

/-- Configuration of the defaults-only construction `new Wlog()`. -/
def defaultConfig : Config := mkConfig {}

/-- Configuration of the spec's concrete scenario:
`new Wlog({logToFile: true, filePath: "t", fileFormat: LogFormat.CSV})`. -/
def c2cfg : Config :=
  mkConfig { logToFile := some true, filePath := some "t",
             fileFormat := some LogFormat.csv }

/-- The scenario run: `log("a")` then `error("b")` on a fresh instance. -/
def c2run : Except Unit WState :=
  (Wlog.log c2cfg noFaults natClock natLoc "a" initState).bind
    (Wlog.error c2cfg noFaults natClock natLoc "b")

/-- A defaults-only `log("m")` call on a fresh instance under the
advancing clock. -/
def c9run : Except Unit WState :=
  Wlog.log defaultConfig noFaults natClock natLoc "m" initState

/-! ### Supporting lemmas: the JSON codec round-trips. -/

/-- `String.mk` projects back to its character list. -/
theorem data_mk (l : List Char) : (String.mk l).data = l := rfl

/-- Matching a literal that the input starts with consumes exactly it. -/
theorem expectLit_append (pat rest : List Char) :
    expectLit pat (pat ++ rest) = some rest := by
  induction pat with
  | nil => simp [expectLit]
  | cons p ps ih => simp [expectLit, ih]

/-- Parsing undoes escaping: the string-body parser returns exactly the
characters that were escaped, and the input following the closing quote. -/
theorem parseStrBody_escape (l rest : List Char) :
    parseStrBody (l.flatMap escChar ++ '"' :: rest) = some (l, rest) := by
  induction l with
  | nil =>
    rw [parseStrBody.eq_def]
    simp
  | cons c t ih =>
    simp only [List.flatMap_cons, List.append_assoc]
    by_cases h1 : c = '"'
    · subst h1
      simp only [escChar, if_pos rfl, List.cons_append, List.nil_append]
      rw [parseStrBody.eq_def]
      simp [unescChar, ih]
    · by_cases h2 : c = '\\'
      · subst h2
        rw [show escChar '\\' = ['\\', '\\'] from rfl]
        rw [parseStrBody.eq_def]
        simp [unescChar, ih]
      · by_cases h3 : c = '\n'
        · subst h3
          rw [show escChar '\n' = ['\\', 'n'] from rfl]
          rw [parseStrBody.eq_def]
          simp [unescChar, ih]
        · by_cases h4 : c = '\r'
          · subst h4
            rw [show escChar '\r' = ['\\', 'r'] from rfl]
            rw [parseStrBody.eq_def]
            simp [unescChar, ih]
          · by_cases h5 : c = '\t'
            · subst h5
              rw [show escChar '\t' = ['\\', 't'] from rfl]
              rw [parseStrBody.eq_def]
              simp [unescChar, ih]
            · rw [show escChar c = [c] by simp [escChar, h1, h2, h3, h4, h5]]
              rw [parseStrBody.eq_def]
              simp [h1, h2, ih]

/-- Parsing one serialized entry recovers the entry and the rest of the
input. -/
theorem parseEntry_entryJson (e : LogEntry) (rest : List Char) :
    parseEntry ((entryJson e).data ++ rest) = some (e, rest) := by
  simp [parseEntry, entryJson, jsonStr, jsonEscape, String.data_append, data_mk,
        List.append_assoc, expectLit, parseStrBody_escape]

/-- Each serialized entry occupies at least one character, so the input is
always long enough to fuel the tail parser. -/
theorem restItems_length (es : List LogEntry) :
    es.length ≤ ((restItems es).data).length := by
  induction es with
  | nil => simp [restItems]
  | cons e t ih =>
    simp only [restItems, String.data_append, List.length_append, List.length_cons]
    omega

/-- Parsing the serialized tail of the array recovers the remaining
entries, given enough fuel. -/
theorem parseTail_restItems (es : List LogEntry) (rest : List Char) :
    ∀ fuel, es.length < fuel →
      parseTail fuel ((restItems es).data ++ '\n' :: ']' :: rest) = some (es, rest) := by
  induction es with
  | nil =>
    intro fuel hf
    match fuel with
    | f + 1 => simp [restItems, parseTail, expectLit]
  | cons e t ih =>
    intro fuel hf
    match fuel with
    | f + 1 =>
      have ht : t.length < f := by simpa using hf
      have hsplit : (restItems (e :: t)).data ++ '\n' :: ']' :: rest
          = ',' :: '\n' ::
              ((entryJson e).data ++ ((restItems t).data ++ '\n' :: ']' :: rest)) := by
        simp [restItems, String.data_append, List.append_assoc]
      rw [hsplit]
      simp [parseTail, expectLit, parseEntry_entryJson, ih f ht]

/-- The serializer never produces the empty-array rendering for a nonempty
list. -/
theorem jsonStringify_cons_ne (e : LogEntry) (es : List LogEntry) :
    jsonStringify (e :: es) ≠ "[]" := by
  intro h
  have hdata := congrArg String.data h
  simp [jsonStringify, String.data_append, data_mk] at hdata

/-- Round trip: the model of `JSON.parse` inverts the model of
`JSON.stringify(·, null, 2)` on every entry list. -/
theorem jsonParse_stringify (l : List LogEntry) :
    jsonParse (jsonStringify l) = some l := by
  match l with
  | [] => simp [jsonStringify, jsonParse]
  | e :: es =>
    have hd : (jsonStringify (e :: es)).data
        = '[' :: '\n' ::
            ((entryJson e).data ++ ((restItems es).data ++ '\n' :: ']' :: [])) := by
      simp [jsonStringify, String.data_append, List.append_assoc]
    have h3 : parseTail ((restItems es).length + 2 + 1)
          ((restItems es).data ++ '\n' :: ']' :: []) = some (es, []) := by
      apply parseTail_restItems
      have := restItems_length es
      simp only [String.length] at *
      omega
    rw [jsonParse, if_neg (jsonStringify_cons_ne e es), hd]
    simp [expectLit, parseEntry_entryJson, h3]

/-- The serializer never produces the empty string. -/
theorem jsonStringify_ne_empty (l : List LogEntry) : jsonStringify l ≠ "" := by
  match l with
  | [] => decide
  | e :: es =>
    intro h
    have hdata := congrArg String.data h
    simp [jsonStringify, String.data_append] at hdata

/-- One JSON write on a file holding a serialized array parses it back,
appends the entry, and rewrites the serialized extended array. -/
theorem writeJson_step (e : LogEntry) (l : List LogEntry) :
    writeToFile LogFormat.json false e (some (jsonStringify l))
      = (some (jsonStringify (l ++ [e])), false) := by
  simp [writeToFile, jsonStringify_ne_empty l, jsonParse_stringify l]

/-- Sequential JSON writes on a file holding a serialized array extend it
in order. -/
theorem writeSeq_json (es : List LogEntry) :
    ∀ l, writeSeq LogFormat.json (some (jsonStringify l)) es
      = some (jsonStringify (l ++ es)) := by
  induction es with
  | nil => intro l; simp [writeSeq]
  | cons e t ih =>
    intro l
    show writeSeq LogFormat.json
        ((writeToFile LogFormat.json false e (some (jsonStringify l))).1) t = _
    rw [writeJson_step]
    rw [ih (l ++ [e])]
    simp

/-- The first JSON write to an absent or empty file produces the
singleton array. -/
theorem writeJson_first (e : LogEntry) :
    writeToFile LogFormat.json false e none = (some (jsonStringify [e]), false)
    ∧ writeToFile LogFormat.json false e (some "")
        = (some (jsonStringify [e]), false) := by
  constructor <;> simp [writeToFile]

/-- One CSV write on a nonempty file appends exactly one data line. -/
theorem writeCsv_step (e : LogEntry) (s : String) (hs : s ≠ "") :
    writeToFile LogFormat.csv false e (some s) = (some (s ++ csvLine e), false) := by
  simp [writeToFile, hs]

/-- Sequential CSV writes on a nonempty file append the data lines in
order. -/
theorem writeSeq_csv (es : List LogEntry) :
    ∀ s : String, s ≠ "" → writeSeq LogFormat.csv (some s) es = some (s ++ csvBody es) := by
  induction es with
  | nil => intro s _; simp [writeSeq, csvBody, String.append_empty]
  | cons e t ih =>
    intro s hs
    show writeSeq LogFormat.csv ((writeToFile LogFormat.csv false e (some s)).1) t = _
    rw [writeCsv_step e s hs]
    have hne : s ++ csvLine e ≠ "" := by
      intro h
      have hlen := congrArg (fun u => u.data.length) h
      simp [String.data_append, csvLine] at hlen
    rw [ih (s ++ csvLine e) hne]
    simp [csvBody, String.append_assoc]

/-- The first CSV write to an absent or empty file writes the header and
the first data line. -/
theorem writeCsv_first (e : LogEntry) :
    writeToFile LogFormat.csv false e none
      = (some ("timestamp,level,message\n" ++ csvLine e), false)
    ∧ writeToFile LogFormat.csv false e (some "")
      = (some ("timestamp,level,message\n" ++ csvLine e), false) := by
  constructor <;> simp [writeToFile]

/-- `firstLine` of header-prefixed content is the header, whatever follows
the header's newline. -/
theorem firstLine_header (body : String) :
    firstLine ("timestamp,level,message\n" ++ body) = "timestamp,level,message" := by
  simp [firstLine, String.data_append, List.takeWhile_cons]

/-- Splitting at newlines peels off a newline-free prefix. -/
theorem splitNl_append (pre : List Char) (rest : List Char) (h : '\n' ∉ pre) :
    splitNl (pre ++ '\n' :: rest) = pre :: splitNl rest := by
  induction pre with
  | nil => simp [splitNl]
  | cons c t ih =>
    have hc : ¬(c = '\n') := by
      intro hc; exact h (hc ▸ List.mem_cons_self c t)
    have ht : '\n' ∉ t := fun hm => h (List.mem_cons_of_mem c hm)
    rw [List.cons_append, splitNl, if_neg hc, ih ht]

/-- Splitting three newline-terminated lines yields the three lines and
the empty trailing piece. -/
theorem splitNl_three (l1 l2 l3 : List Char)
    (h1 : '\n' ∉ l1) (h2 : '\n' ∉ l2) (h3 : '\n' ∉ l3) :
    splitNl (l1 ++ '\n' :: (l2 ++ '\n' :: (l3 ++ '\n' :: [])))
      = [l1, l2, l3, []] := by
  rw [splitNl_append l1 _ h1, splitNl_append l2 _ h2, splitNl_append l3 _ h3]
  rfl

/-- Merging the base query with the `WHERE` keyword. -/
theorem select_where_merge (x : String) :
    "SELECT * FROM logs" ++ (" WHERE " ++ x) = "SELECT * FROM logs WHERE " ++ x := by
  rw [← String.append_assoc]
  rfl

/-- C4: for every filter request, the builder appends one conjunctive
predicate per present field among `startDate`, `endDate`, `level` -
`timestamp >= ?`, `timestamp <= ?`, `level = ?` respectively - in that
fixed order, pushes the corresponding values in the same order, joins the
predicates with `AND`, omits the `WHERE` clause entirely when no predicate
was added, and absent fields contribute no predicate. -/
theorem claim4_query_builder (p : LogQueryParams) :
    buildQueryFromParams p =
      ("SELECT * FROM logs" ++
        (if (specConds p).length = 0 then ""
         else " WHERE " ++ String.intercalate " AND " ((specConds p).map Prod.fst)) ++
        " ORDER BY timestamp " ++ orderEff p.order ++ pagSql p,
       (specConds p).map Prod.snd ++ pagVals p) := by
  cases hs : strTruthy p.startDate <;> cases he : strTruthy p.endDate <;>
    cases hl : strTruthy p.level <;> cases hm : natTruthy p.limit <;>
    cases ho : natTruthy p.offset <;>
    simp [buildQueryFromParams, specConds, pagSql, pagVals, hs, he, hl, hm, ho,
          String.append_assoc, String.append_empty, select_where_merge]

/-- C10: the builder treats falsy field values exactly as absent ones:
`limit = 0` emits no `LIMIT` clause and binds no limit value, `offset = 0`
emits no `OFFSET` clause, and an empty-string `startDate`, `endDate` or
`level` contributes no predicate. -/
theorem claim10_falsy (p : LogQueryParams) :
    buildQueryFromParams { p with limit := some 0 }
      = buildQueryFromParams { p with limit := none }
    ∧ buildQueryFromParams { p with offset := some 0 }
      = buildQueryFromParams { p with offset := none }
    ∧ buildQueryFromParams { p with startDate := some "" }
      = buildQueryFromParams { p with startDate := none }
    ∧ buildQueryFromParams { p with endDate := some "" }
      = buildQueryFromParams { p with endDate := none }
    ∧ buildQueryFromParams { p with level := some "" }
      = buildQueryFromParams { p with level := none } := by
  refine ⟨?_, ?_, ?_, ?_, ?_⟩ <;>
    simp [buildQueryFromParams, strTruthy, natTruthy]

/-- C3 is false of the code: the HTTP handler's `order` cast performs no
runtime validation, so the request value `foo` is upper-cased and
interpolated verbatim: the built statement reads
`ORDER BY timestamp FOO`, whose direction is neither `ASC` nor `DESC`. -/
theorem claim3_code_bug :
    (buildQueryFromParams { order := some (fetchOrder (some "foo")) }).1
      = "SELECT * FROM logs ORDER BY timestamp FOO"
    ∧ (buildQueryFromParams { order := some (fetchOrder (some "foo")) }).1
        ≠ "SELECT * FROM logs ORDER BY timestamp ASC"
    ∧ (buildQueryFromParams { order := some (fetchOrder (some "foo")) }).1
        ≠ "SELECT * FROM logs ORDER BY timestamp DESC" := by
  refine ⟨?_, ?_, ?_⟩ <;> decide

/-- C5 as amended: for an effective (nonzero) `limit = k` the query
returns at most `k` rows, and with an effective `offset = m` it returns
rows `m..m+k-1` of the filtered and ordered result; when `limit` is
absent (or `0`, which the builder treats as absent) the full filtered and
ordered result is returned and the built statement is identical to the one
with `offset` removed - no `OFFSET` clause is emitted; when `limit` is
effective the statement is the pagination-free statement plus the
`LIMIT ?` (and, for an effective offset, `OFFSET ?`) suffix. -/
theorem claim5_amended (p : LogQueryParams) (rows : List LogRow) :
    (∀ k, p.limit = some k → k ≠ 0 → (runQuery p rows).length ≤ k)
    ∧ (∀ k m, p.limit = some k → k ≠ 0 → p.offset = some m → m ≠ 0 →
        runQuery p rows
          = ((orderRows (orderEff p.order) (rows.filter (rowMatches p))).drop m).take k)
    ∧ (natTruthy p.limit = false →
        runQuery p rows = orderRows (orderEff p.order) (rows.filter (rowMatches p))
        ∧ buildQueryFromParams p = buildQueryFromParams { p with offset := none })
    ∧ (∀ k, p.limit = some k → k ≠ 0 →
        (buildQueryFromParams p).1
          = (buildQueryFromParams { p with limit := none, offset := none }).1
            ++ (if natTruthy p.offset then " LIMIT ? OFFSET ?" else " LIMIT ?")) := by
  refine ⟨?_, ?_, ?_, ?_⟩
  · intro k hk hk0
    have ht : natTruthy (some k) = true := by simp [natTruthy, hk0]
    simp only [runQuery, hk, ht, if_true, Option.getD_some]
    split
    · simp only [List.length_take]
      omega
    · simp only [List.length_take]
      omega
  · intro k m hk hk0 hm hm0
    have ht1 : natTruthy (some k) = true := by simp [natTruthy, hk0]
    have ht2 : natTruthy (some m) = true := by simp [natTruthy, hm0]
    simp [runQuery, hk, hm, ht1, ht2]
  · intro h
    constructor
    · simp [runQuery, h]
    · cases hs : strTruthy p.startDate <;> cases he : strTruthy p.endDate <;>
        cases hl : strTruthy p.level <;>
        simp [buildQueryFromParams, h, hs, he, hl]
  · intro k hk hk0
    have ht : natTruthy (some k) = true := by simp [natTruthy, hk0]
    have hn : natTruthy none = false := rfl
    cases ho : natTruthy p.offset <;>
      cases hs : strTruthy p.startDate <;> cases he : strTruthy p.endDate <;>
      cases hl : strTruthy p.level <;>
      simp [buildQueryFromParams, hk, ht, hn, ho, hs, he, hl, String.append_assoc]

/-- Witness for C5: a concrete store and an effective `limit`/`offset`. -/
theorem claim5_witness :
    (runQuery { level := some "e", limit := some 2, offset := some 1 }
      [⟨1, "e", "m1", "1"⟩, ⟨2, "log", "m2", "2"⟩, ⟨3, "e", "m3", "3"⟩]).length ≤ 2
    ∧ runQuery { level := some "e", limit := some 2, offset := some 1 }
        [⟨1, "e", "m1", "1"⟩, ⟨2, "log", "m2", "2"⟩, ⟨3, "e", "m3", "3"⟩]
      = ((orderRows
            (orderEff (LogQueryParams.order { level := some "e", limit := some 2, offset := some 1 }))
            ([⟨1, "e", "m1", "1"⟩, ⟨2, "log", "m2", "2"⟩, ⟨3, "e", "m3", "3"⟩].filter
              (rowMatches { level := some "e", limit := some 2, offset := some 1 }))).drop 1).take 2 :=
  ⟨(claim5_amended { level := some "e", limit := some 2, offset := some 1 }
      [⟨1, "e", "m1", "1"⟩, ⟨2, "log", "m2", "2"⟩, ⟨3, "e", "m3", "3"⟩]).1 2 rfl (by decide),
   (claim5_amended { level := some "e", limit := some 2, offset := some 1 }
      [⟨1, "e", "m1", "1"⟩, ⟨2, "log", "m2", "2"⟩, ⟨3, "e", "m3", "3"⟩]).2.1 2 1 rfl
        (by decide) rfl (by decide)⟩

/-- C5 as frozen is false at `limit = 0`: JavaScript truthiness makes the
builder skip the `LIMIT` clause, so the query returns every row instead of
at most `0`. -/
theorem claim5_counterexample :
    runQuery { limit := some 0 } [⟨1, "log", "m", "2024"⟩] = [⟨1, "log", "m", "2024"⟩]
    ∧ ¬ ((runQuery { limit := some 0 } [⟨1, "log", "m", "2024"⟩]).length ≤ 0)
    ∧ (buildQueryFromParams { limit := some 0 }).1
        = "SELECT * FROM logs ORDER BY timestamp DESC" := by
  refine ⟨?_, ?_, ?_⟩ <;> decide

/-- C1 as amended: a file I/O failure is caught inside the facade call -
it is reported on the operator error channel and the call returns
normally, with the store row inserted and the console line emitted as
configured, the file left unchanged; but a store insert failure is NOT
caught: `db.run` sits outside every try/catch, so it throws to the caller
(and the console and file outputs are then skipped). -/
theorem claim1_amended (cfg : Config) (clock : Nat → Nat) (locOf : Nat → String)
    (msg : String) (st : WState) :
    (Wlog.log cfg ⟨false, true⟩ clock locOf msg st = Except.ok
      { db := st.db ++ [⟨"log", msg, clock st.clockIdx⟩],
        console := st.console ++
          (if cfg.logToConsole then
            [⟨CStream.out, clock (st.clockIdx + 1), "LOG", msg⟩] else []),
        file := st.file,
        opErrors := st.opErrors + (if cfg.logToFile then 1 else 0),
        fsWrites := st.fsWrites,
        clockIdx := st.clockIdx + 1 + (if cfg.logToConsole then 1 else 0)
          + (if cfg.logToFile then 1 else 0) })
    ∧ (Wlog.info cfg ⟨false, true⟩ clock locOf msg st = Except.ok
      { db := st.db ++ [⟨"info", msg, clock st.clockIdx⟩],
        console := st.console ++
          (if cfg.logToConsole then
            [⟨CStream.inf, clock (st.clockIdx + 1), "INFO", msg⟩] else []),
        file := st.file,
        opErrors := st.opErrors + (if cfg.logToFile then 1 else 0),
        fsWrites := st.fsWrites,
        clockIdx := st.clockIdx + 1 + (if cfg.logToConsole then 1 else 0)
          + (if cfg.logToFile then 1 else 0) })
    ∧ (Wlog.error cfg ⟨false, true⟩ clock locOf msg st = Except.ok
      { db := st.db ++ [⟨"error", msg, clock st.clockIdx⟩],
        console := st.console ++
          (if cfg.logToConsole then
            [⟨CStream.err, clock (st.clockIdx + 1), "ERROR", msg⟩] else []),
        file := st.file,
        opErrors := st.opErrors + (if cfg.logToFile then 1 else 0),
        fsWrites := st.fsWrites,
        clockIdx := st.clockIdx + 1 + (if cfg.logToConsole then 1 else 0)
          + (if cfg.logToFile then 1 else 0) })
    ∧ (∀ flt : Faults, flt.insertFails = true →
        Wlog.log cfg flt clock locOf msg st = Except.error ()
        ∧ Wlog.info cfg flt clock locOf msg st = Except.error ()
        ∧ Wlog.error cfg flt clock locOf msg st = Except.error ()) := by
  refine ⟨?_, ?_, ?_, ?_⟩
  · cases hc : cfg.logToConsole <;> cases hf : cfg.logToFile <;>
      simp [Wlog.log, facadeCall, writeToFile, hc, hf]
  · cases hc : cfg.logToConsole <;> cases hf : cfg.logToFile <;>
      simp [Wlog.info, facadeCall, writeToFile, hc, hf]
  · cases hc : cfg.logToConsole <;> cases hf : cfg.logToFile <;>
      simp [Wlog.error, facadeCall, writeToFile, hc, hf]
  · intro flt h
    refine ⟨?_, ?_, ?_⟩ <;>
      simp [Wlog.log, Wlog.info, Wlog.error, facadeCall, h]

/-- Witness for C1 (amended): instantiating the insert-fault clause at a
concrete configuration and clock. -/
theorem claim1_witness :
    Wlog.error defaultConfig ⟨true, false⟩ natClock natLoc "m" initState
      = Except.error () :=
  ((claim1_amended defaultConfig natClock natLoc "m" initState).2.2.2
    ⟨true, false⟩ rfl).2.2

/-- C1 as frozen is false: when the store insert throws, `log` propagates
the failure to its caller instead of catching it. -/
theorem claim1_counterexample :
    Wlog.log defaultConfig ⟨true, false⟩ natClock natLoc "m" initState
      = Except.error ()
    ∧ ∀ st', Wlog.log defaultConfig ⟨true, false⟩ natClock natLoc "m" initState
        ≠ Except.ok st' := by
  constructor
  · rfl
  · intro st' h
    simp [Wlog.log, facadeCall] at h

/-- C8: with file output disabled and console output enabled, each facade
call inserts exactly one store row and emits exactly one console line,
performs no filesystem write and leaves the file untouched; and the store
insert is unconditional - under every configuration a fault-free call
appends exactly the one store row. -/
theorem claim8_fanout (cfg : Config) (clock : Nat → Nat) (locOf : Nat → String)
    (msg : String) (st : WState) (hf : cfg.logToFile = false)
    (hc : cfg.logToConsole = true) :
    (Wlog.log cfg noFaults clock locOf msg st = Except.ok
      { db := st.db ++ [⟨"log", msg, clock st.clockIdx⟩],
        console := st.console ++ [⟨CStream.out, clock (st.clockIdx + 1), "LOG", msg⟩],
        file := st.file, opErrors := st.opErrors, fsWrites := st.fsWrites,
        clockIdx := st.clockIdx + 1 + 1 })
    ∧ (Wlog.info cfg noFaults clock locOf msg st = Except.ok
      { db := st.db ++ [⟨"info", msg, clock st.clockIdx⟩],
        console := st.console ++ [⟨CStream.inf, clock (st.clockIdx + 1), "INFO", msg⟩],
        file := st.file, opErrors := st.opErrors, fsWrites := st.fsWrites,
        clockIdx := st.clockIdx + 1 + 1 })
    ∧ (Wlog.error cfg noFaults clock locOf msg st = Except.ok
      { db := st.db ++ [⟨"error", msg, clock st.clockIdx⟩],
        console := st.console ++ [⟨CStream.err, clock (st.clockIdx + 1), "ERROR", msg⟩],
        file := st.file, opErrors := st.opErrors, fsWrites := st.fsWrites,
        clockIdx := st.clockIdx + 1 + 1 })
    ∧ (∀ cfg' : Config,
        (Wlog.log cfg' noFaults clock locOf msg st).map WState.db
          = Except.ok (st.db ++ [⟨"log", msg, clock st.clockIdx⟩])) := by
  refine ⟨?_, ?_, ?_, ?_⟩
  · simp [Wlog.log, facadeCall, hc, hf, noFaults]
  · simp [Wlog.info, facadeCall, hc, hf, noFaults]
  · simp [Wlog.error, facadeCall, hc, hf, noFaults]
  · intro cfg'
    cases hcc : cfg'.logToConsole <;> cases hff : cfg'.logToFile <;>
      simp [Wlog.log, facadeCall, hcc, hff, noFaults, Except.map]

/-- Witness for C8: the defaults-only configuration has file output
disabled and console output enabled. -/
theorem claim8_witness :
    Wlog.log defaultConfig noFaults natClock natLoc "m" initState = Except.ok
      { db := [⟨"log", "m", 0⟩], console := [⟨CStream.out, 1, "LOG", "m"⟩],
        file := none, opErrors := 0, fsWrites := 0, clockIdx := 2 } := by
  have h := (claim8_fanout defaultConfig natClock natLoc "m" initState rfl rfl).1
  simpa [initState, natClock] using h

/-- C9 as amended: each facade call takes its store (ISO) timestamp and
its console/file (locale) timestamps from separate `new Date()`
constructions; whenever the clock reads the same instant for every
construction of the call, all three sinks are stamped with that one
instant. -/
theorem claim9_amended (cfg : Config) (clock : Nat → Nat) (locOf : Nat → String)
    (msg : String) (st : WState)
    (hclock : ∀ i, clock i = clock st.clockIdx) :
    Wlog.log cfg noFaults clock locOf msg st = Except.ok
      { db := st.db ++ [⟨"log", msg, clock st.clockIdx⟩],
        console := st.console ++
          (if cfg.logToConsole then
            [⟨CStream.out, clock st.clockIdx, "LOG", msg⟩] else []),
        file := if cfg.logToFile then
            (writeToFile cfg.fileFormat false
              ⟨locOf (clock st.clockIdx), "LOG", msg⟩ st.file).1
          else st.file,
        opErrors := st.opErrors +
          (if cfg.logToFile then
            (if (writeToFile cfg.fileFormat false
                  ⟨locOf (clock st.clockIdx), "LOG", msg⟩ st.file).2
             then 1 else 0) else 0),
        fsWrites := st.fsWrites +
          (if cfg.logToFile then
            (if (writeToFile cfg.fileFormat false
                  ⟨locOf (clock st.clockIdx), "LOG", msg⟩ st.file).2
             then 0 else 1) else 0),
        clockIdx := st.clockIdx + 1 + (if cfg.logToConsole then 1 else 0)
          + (if cfg.logToFile then 1 else 0) } := by
  cases hc : cfg.logToConsole <;> cases hf : cfg.logToFile <;>
    simp [Wlog.log, facadeCall, hc, hf, noFaults,
          hclock (st.clockIdx + 1), hclock (st.clockIdx + 2)]

/-- Witness for C9 (amended): under a constant clock the store row, the
console line and the file line of one `log` call all carry instant `7`. -/
theorem claim9_witness :
    Wlog.log c2cfg noFaults (fun _ => 7) natLoc "m" initState = Except.ok
      { db := [⟨"log", "m", 7⟩], console := [⟨CStream.out, 7, "LOG", "m"⟩],
        file := some "timestamp,level,message\n7,LOG,m\n",
        opErrors := 0, fsWrites := 1, clockIdx := 3 } := by
  have h := claim9_amended c2cfg (fun _ => 7) natLoc "m" initState (fun _ => rfl)
  exact h

/-- C9 as frozen is false: under a clock that advances between `Date`
constructions, the defaults-only `log` call persists instant `0` to the
store but prints the console line with instant `1` - the two timestamps
do not refer to the same instant. -/
theorem claim9_counterexample :
    dbOf c9run = [⟨"log", "m", 0⟩]
    ∧ consoleOf c9run = [⟨CStream.out, 1, "LOG", "m"⟩]
    ∧ (0 : Nat) ≠ 1 := by
  refine ⟨rfl, rfl, by decide⟩

/-- Header-prefixed CSV content is never the empty string. -/
theorem header_append_ne_empty (x : String) :
    ¬("timestamp,level,message\n" ++ x = "") := by
  intro h
  have hlen := congrArg (fun u => u.data.length) h
  simp [String.data_append] at hlen

/-- C2 as amended: the scenario configuration targets file `t.csv`;
`log("a")` then `error("b")` on a fresh instance leave the file holding
exactly three lines - the header, a line ending `,LOG,a` and a line ending
`,ERROR,b` (the facade hands the file sink upper-cased level tags) - and
the instants stamped into the two entry lines are the third and sixth
clock readings, which are increasing whenever the clock is strictly
monotone. -/
theorem claim2_amended (clock : Nat → Nat) (locOf : Nat → String)
    (h2 : '\n' ∉ (locOf (clock 2)).data) (h5 : '\n' ∉ (locOf (clock 5)).data) :
    getFullFilePath c2cfg = "t.csv"
    ∧ fileOf ((Wlog.log c2cfg noFaults clock locOf "a" initState).bind
        (Wlog.error c2cfg noFaults clock locOf "b"))
      = some ("timestamp,level,message\n" ++ (locOf (clock 2) ++ ",LOG,a\n")
          ++ (locOf (clock 5) ++ ",ERROR,b\n"))
    ∧ linesOf ("timestamp,level,message\n" ++ (locOf (clock 2) ++ ",LOG,a\n")
          ++ (locOf (clock 5) ++ ",ERROR,b\n"))
      = ["timestamp,level,message", locOf (clock 2) ++ ",LOG,a",
         locOf (clock 5) ++ ",ERROR,b", ""]
    ∧ (StrictMono clock → clock 2 < clock 5) := by
  refine ⟨rfl, ?_, ?_, ?_⟩
  · simp [Wlog.log, Wlog.error, facadeCall, c2cfg, mkConfig, noFaults,
          Except.bind, fileOf, writeToFile, csvLine, initState,
          header_append_ne_empty, String.append_assoc]
  · have hdata : ("timestamp,level,message\n" ++ (locOf (clock 2) ++ ",LOG,a\n")
          ++ (locOf (clock 5) ++ ",ERROR,b\n")).data
        = "timestamp,level,message".data ++ '\n' ::
            (((locOf (clock 2)).data ++ ",LOG,a".data) ++ '\n' ::
              (((locOf (clock 5)).data ++ ",ERROR,b".data) ++ '\n' :: [])) := by
      simp [String.data_append, List.append_assoc]
    have hm1 : '\n' ∉ "timestamp,level,message".data := by decide
    have hm2 : '\n' ∉ (locOf (clock 2)).data ++ ",LOG,a".data := by
      intro hmem
      rcases List.mem_append.mp hmem with hmem | hmem
      · exact h2 hmem
      · revert hmem; decide
    have hm3 : '\n' ∉ (locOf (clock 5)).data ++ ",ERROR,b".data := by
      intro hmem
      rcases List.mem_append.mp hmem with hmem | hmem
      · exact h5 hmem
      · revert hmem; decide
    rw [linesOf, hdata, splitNl_three _ _ _ hm1 hm2 hm3]
    simp [String.data_append]
    exact ⟨rfl, rfl⟩
  · intro hm
    exact hm (by norm_num)

/-- Witness for C2 (amended): the advancing clock with decimal locale
rendering. -/
theorem claim2_witness :
    fileOf c2run = some "timestamp,level,message\n2,LOG,a\n5,ERROR,b\n" := by
  have h := (claim2_amended natClock natLoc (by decide) (by decide)).2.1
  exact h

/-- C2 as frozen is false: in the concrete run the entry lines end
`,LOG,a` and `,ERROR,b` - no line of `t.csv` ends in `,log,a`. -/
theorem claim2_counterexample :
    fileOf c2run = some "timestamp,level,message\n2,LOG,a\n5,ERROR,b\n"
    ∧ (linesOf "timestamp,level,message\n2,LOG,a\n5,ERROR,b\n").all
        (fun l => !(endsWithStr l ",log,a")) = true := by
  exact ⟨rfl, by decide⟩

/-- C6: writing entries `e1..en` sequentially through the JSON-format
sink, starting from an absent or empty file, leaves the file holding the
serialized array of exactly `[e1, ..., en]` in that order, and that
content parses back to `[e1, ..., en]`. -/
theorem claim6_json_roundtrip (es : List LogEntry) (f0 : Option String)
    (h0 : f0 = none ∨ f0 = some "") (hne : es ≠ []) :
    writeSeq LogFormat.json f0 es = some (jsonStringify es)
    ∧ jsonParse (jsonStringify es) = some es := by
  refine ⟨?_, jsonParse_stringify es⟩
  cases es with
  | nil => exact absurd rfl hne
  | cons e t =>
    have hstep : (writeToFile LogFormat.json false e f0).1
        = some (jsonStringify [e]) := by
      rcases h0 with h | h <;> subst h
      · rw [(writeJson_first e).1]
      · rw [(writeJson_first e).2]
    show writeSeq LogFormat.json ((writeToFile LogFormat.json false e f0).1) t = _
    rw [hstep, writeSeq_json t [e]]
    simp

/-- Witness for C6: two concrete entries from an absent file. -/
theorem claim6_witness :
    writeSeq LogFormat.json none [⟨"t1", "LOG", "a"⟩, ⟨"t2", "ERROR", "b"⟩]
      = some (jsonStringify [⟨"t1", "LOG", "a"⟩, ⟨"t2", "ERROR", "b"⟩])
    ∧ jsonParse (jsonStringify [⟨"t1", "LOG", "a"⟩, ⟨"t2", "ERROR", "b"⟩])
      = some [⟨"t1", "LOG", "a"⟩, ⟨"t2", "ERROR", "b"⟩] :=
  claim6_json_roundtrip [⟨"t1", "LOG", "a"⟩, ⟨"t2", "ERROR", "b"⟩] none
    (Or.inl rfl) (by decide)

/-- C7: any nonempty sequence of CSV-format writes starting from an
absent (or empty) file produces the header exactly once, at the top,
followed by exactly one comma-joined line per entry, so the first line of
the file is always exactly `timestamp,level,message`. -/
theorem claim7_csv_header (es : List LogEntry) (hne : es ≠ []) :
    writeSeq LogFormat.csv none es
      = some ("timestamp,level,message\n" ++ csvBody es)
    ∧ writeSeq LogFormat.csv (some "") es
      = some ("timestamp,level,message\n" ++ csvBody es)
    ∧ firstLine ("timestamp,level,message\n" ++ csvBody es)
      = "timestamp,level,message" := by
  refine ⟨?_, ?_, firstLine_header _⟩ <;>
  · cases es with
    | nil => exact absurd rfl hne
    | cons e t =>
      have h1 : (writeToFile LogFormat.csv false e none).1
          = some ("timestamp,level,message\n" ++ csvLine e) := by
        rw [(writeCsv_first e).1]
      have hne2 : "timestamp,level,message\n" ++ csvLine e ≠ "" :=
        header_append_ne_empty (csvLine e)
      show writeSeq LogFormat.csv ((writeToFile LogFormat.csv false e none).1) t = _
      rw [h1, writeSeq_csv t _ hne2]
      simp [csvBody, String.append_assoc]

/-- Witness for C7: two concrete entries from an absent file. -/
theorem claim7_witness :
    writeSeq LogFormat.csv none [⟨"1", "LOG", "a"⟩, ⟨"2", "ERROR", "b"⟩]
      = some ("timestamp,level,message\n"
          ++ csvBody [⟨"1", "LOG", "a"⟩, ⟨"2", "ERROR", "b"⟩])
    ∧ firstLine ("timestamp,level,message\n"
          ++ csvBody [⟨"1", "LOG", "a"⟩, ⟨"2", "ERROR", "b"⟩])
      = "timestamp,level,message" := by
  have h := claim7_csv_header [⟨"1", "LOG", "a"⟩, ⟨"2", "ERROR", "b"⟩] (by decide)
  exact ⟨h.1, h.2.2⟩
